import Mathlib

/-!
Verification development for the widget2code repository.

The development shallowly embeds the two core modules:

* `libs/python/generator/utils/layout_json_to_dsl.py` — the layout
  inference engine converting absolute-bounds layout trees into Widget
  DSL trees; and
* `libs/python/generator/generation/widget/html_compiler.py` — the
  compiler walking a Widget DSL tree and emitting markup plus behavior
  snippets.

Numbers are modelled as rationals (`ℚ`), each Python float literal read
as the rational its source text denotes.  Python's `round` (banker's
rounding, round-half-to-even) is modelled by `pyRound`.  Emitted HTML is
abstracted to a stream of `Emit` tokens carrying the values the source
computes; purely cosmetic string formatting (indentation, CSS style
strings) is not reproduced.
-/

namespace Widget2Code

/-- Python's built-in `round` to an integer: round half to even. -/
def pyRound (q : ℚ) : ℤ :=
  if q - ⌊q⌋ < 1/2 then ⌊q⌋
  else if 1/2 < q - ⌊q⌋ then ⌊q⌋ + 1
  else if ⌊q⌋ % 2 = 0 then ⌊q⌋ else ⌊q⌋ + 1

/-- Python's `round(x, 3)`: round half to even at the third decimal. -/
def pyRound3 (q : ℚ) : ℚ := (pyRound (q * 1000) : ℚ) / 1000

theorem pyRound_ge_floor (q : ℚ) : ⌊q⌋ ≤ pyRound q := by
  unfold pyRound
  split_ifs <;> omega

theorem pyRound_le_floor_add_one (q : ℚ) : pyRound q ≤ ⌊q⌋ + 1 := by
  unfold pyRound
  split_ifs <;> omega

theorem pyRound_cast_le (q : ℚ) : (pyRound q : ℚ) ≤ q + 1/2 := by
  unfold pyRound
  have h0 := Int.floor_le q
  split_ifs with h1 h2 h3
  · linarith
  · push_cast
    linarith
  · linarith
  · push_cast
    linarith

theorem pyRound_nonpos {q : ℚ} (h : q ≤ 0) : pyRound q ≤ 0 := by
  have hle := pyRound_cast_le q
  have : (pyRound q : ℚ) ≤ 1/2 := by linarith
  by_contra hc
  push_neg at hc
  have : (1 : ℚ) ≤ (pyRound q : ℚ) := by exact_mod_cast hc
  linarith

theorem pyRound_mono {x y : ℚ} (h : x ≤ y) : pyRound x ≤ pyRound y := by
  rcases lt_or_eq_of_le (Int.floor_le_floor h) with hf | hf
  · calc pyRound x ≤ ⌊x⌋ + 1 := pyRound_le_floor_add_one x
      _ ≤ ⌊y⌋ := by omega
      _ ≤ pyRound y := pyRound_ge_floor y
  · have hfx : (⌊x⌋ : ℚ) ≤ x := Int.floor_le x
    have hfy : (⌊y⌋ : ℚ) ≤ y := Int.floor_le y
    have hfrac : x - ⌊x⌋ ≤ y - ⌊y⌋ := by
      rw [hf]
      linarith
    unfold pyRound
    rw [hf] at *
    split_ifs <;> first | omega | linarith

/-- Rectangle helper mirroring the `Rect` dataclass. -/
structure Rect where
  left : ℚ
  top : ℚ
  right : ℚ
  bottom : ℚ
deriving DecidableEq

def Rect.width (r : Rect) : ℚ := max 0 (r.right - r.left)

def Rect.height (r : Rect) : ℚ := max 0 (r.bottom - r.top)

def Rect.centerX (r : Rect) : ℚ := r.left + r.width / 2

def Rect.centerY (r : Rect) : ℚ := r.top + r.height / 2

/-- `_rect_from_bounds`: build a `Rect` from a `[left, top, right, bottom]` list. -/
def rectFromBounds : ℚ × ℚ × ℚ × ℚ → Rect
  | (l, t, r, b) => Rect.mk l t r b

/-- An input layout-analysis node (the external `LayoutNode` JSON shape).
`bounds = none` models an absent or empty `bounds` entry; `numLine = none`
models an absent `num_line` key; missing `type`/`text`/`content` strings
are the empty string, matching the `dict.get` defaults in the source. -/
inductive LayoutNode where
  | node (ty : String) (bounds : Option (ℚ × ℚ × ℚ × ℚ)) (direction : Option String)
      (text : String) (content : String) (numLine : Option ℤ)
      (subNodes : List LayoutNode)

def LayoutNode.ty : LayoutNode → String
  | .node t _ _ _ _ _ _ => t

def LayoutNode.bounds : LayoutNode → Option (ℚ × ℚ × ℚ × ℚ)
  | .node _ b _ _ _ _ _ => b

def LayoutNode.direction : LayoutNode → Option String
  | .node _ _ d _ _ _ _ => d

def LayoutNode.text : LayoutNode → String
  | .node _ _ _ t _ _ _ => t

def LayoutNode.content : LayoutNode → String
  | .node _ _ _ _ c _ _ => c

def LayoutNode.numLine : LayoutNode → Option ℤ
  | .node _ _ _ _ _ n _ => n

/-- `_node_children`: `node.get("subNodes", []) or []`. -/
def LayoutNode.subNodes : LayoutNode → List LayoutNode
  | .node _ _ _ _ _ _ s => s

theorem LayoutNode.sizeOf_subNodes_lt (n : LayoutNode) : sizeOf n.subNodes < sizeOf n := by
  cases n with
  | node ty bounds direction text content numLine subNodes =>
    simp [LayoutNode.subNodes]

/-- The width-preferring device scale factor used by `estimate_font_size`:
`physicalWidth / virtualWidth` when the virtual width is positive, else the
height ratio when the virtual height is positive, else `1`. -/
def derivedScale (physicalSize virtualSize : ℚ × ℚ) : ℚ :=
  if virtualSize.1 > 0 then physicalSize.1 / virtualSize.1
  else if virtualSize.2 > 0 then physicalSize.2 / virtualSize.2
  else 1

/-- `estimate_font_size`: estimate a font size from text bounds plus device
metrics; the result is floored at 10. -/
def estimateFontSize (bounds : Rect) (physicalSize virtualSize : ℚ × ℚ)
    (numLines : ℤ := 1) (lineHeightFactor : ℚ := 6/5) : ℤ :=
  max 10 (pyRound (bounds.height / derivedScale physicalSize virtualSize /
    ((max 1 numLines : ℤ) : ℚ) / lineHeightFactor))

/-- Stable insertion of a rectangle into a list sorted by the given key
(a new element goes after existing elements with an equal key, matching
Python's stable `list.sort`). -/
def insertRectBy (key : Rect → ℚ) (x : Rect) : List Rect → List Rect
  | [] => [x]
  | y :: ys => if key y ≤ key x then y :: insertRectBy key x ys else x :: y :: ys

/-- Stable sort of rectangles by the given key (models `rects.sort(key=...)`). -/
def sortRectsBy (key : Rect → ℚ) (l : List Rect) : List Rect :=
  l.foldl (fun acc x => insertRectBy key x acc) []

/-- Stable insertion of a rational into an ascending list. -/
def insertQ (x : ℚ) : List ℚ → List ℚ
  | [] => [x]
  | y :: ys => if y ≤ x then y :: insertQ x ys else x :: y :: ys

/-- Ascending sort of rationals (used by `median`). -/
def sortQ (l : List ℚ) : List ℚ :=
  l.foldl (fun acc x => insertQ x acc) []

/-- `statistics.median`: middle element of the sorted data for odd length,
mean of the two middle elements for even length. -/
def median (l : List ℚ) : ℚ :=
  if (sortQ l).length % 2 = 1 then (sortQ l).getD ((sortQ l).length / 2) 0
  else ((sortQ l).getD ((sortQ l).length / 2 - 1) 0 +
    (sortQ l).getD ((sortQ l).length / 2) 0) / 2

/-- Main-axis sort key used by `_infer_gap`: `rect.left` for rows,
`rect.top` for columns. -/
def rectMainKey (direction : String) (r : Rect) : ℚ :=
  if direction = "row" then r.left else r.top

/-- The rectangles of the children that carry (truthy) bounds, in order
(the comprehension `[_rect_from_bounds(child["bounds"]) for child in
children if child.get("bounds")]`). -/
def childBoundRects (children : List LayoutNode) : List Rect :=
  children.filterMap (fun c => c.bounds.map rectFromBounds)

/-- The positive leading-edge-to-trailing-edge distances between adjacent
rectangles (`zip(rects, rects[1:])`, keeping only `gap > 0`). -/
def adjacentPositiveGaps (sorted : List Rect) (direction : String) : List ℚ :=
  (sorted.zip sorted.tail).filterMap (fun p =>
    let g := if direction = "row" then p.2.left - p.1.right else p.2.top - p.1.bottom
    if g > 0 then some g else none)

/-- `_infer_gap`: infer the gap between children along the main axis. -/
def inferGap (children : List LayoutNode) (direction : String) : ℤ :=
  if children.length < 2 then 0
  else if (childBoundRects children).length < 2 then 0
  else if (adjacentPositiveGaps
      (sortRectsBy (rectMainKey direction) (childBoundRects children)) direction).isEmpty
    then 0
  else pyRound (median (adjacentPositiveGaps
    (sortRectsBy (rectMainKey direction) (childBoundRects children)) direction))

/-- Leading edge of a rectangle on the main axis. -/
def leadingEdge (direction : String) (r : Rect) : ℚ :=
  if direction = "row" then r.left else r.top

/-- Trailing edge of a rectangle on the main axis. -/
def trailingEdge (direction : String) (r : Rect) : ℚ :=
  if direction = "row" then r.right else r.bottom

/-- Minimum of `f` over a nonempty list given as head and tail
(models Python's `min(...)` over a generator). -/
def listMinBy (f : Rect → ℚ) (c : Rect) (cs : List Rect) : ℚ :=
  cs.foldl (fun m r => min m (f r)) (f c)

/-- Maximum of `f` over a nonempty list given as head and tail. -/
def listMaxBy (f : Rect → ℚ) (c : Rect) (cs : List Rect) : ℚ :=
  cs.foldl (fun m r => max m (f r)) (f c)

/-- `_align_main`: infer `alignMain` from child placement along the main axis. -/
def alignMain (container : Rect) (children : List Rect) (direction : String) :
    Option String :=
  match children with
  | [] => none
  | c :: cs =>
    let axisStart := if direction = "row" then container.left else container.top
    let axisEnd := if direction = "row" then container.right else container.bottom
    let axisSize := if direction = "row" then container.width else container.height
    let axisCenter := if direction = "row" then container.centerX else container.centerY
    let childStart := listMinBy (leadingEdge direction) c cs
    let childEnd := listMaxBy (trailingEdge direction) c cs
    let childCenter := (childStart + childEnd) / 2
    let tolerance := max 8 (axisSize * (8/100))
    if cs ≠ [] ∧ |childStart - axisStart| ≤ tolerance ∧ |axisEnd - childEnd| ≤ tolerance
    then some "between"
    else if |childCenter - axisCenter| ≤ tolerance then some "center"
    else if |childStart - axisStart| ≤ tolerance then some "start"
    else if |axisEnd - childEnd| ≤ tolerance then some "end"
    else some "start"

/-- `_align_cross`: infer `alignCross` from child placement along the cross axis. -/
def alignCross (container : Rect) (children : List Rect) (direction : String) :
    Option String :=
  match children with
  | [] => none
  | c :: cs =>
    let axisStart := if direction = "row" then container.top else container.left
    let axisEnd := if direction = "row" then container.bottom else container.right
    let axisSize := if direction = "row" then container.height else container.width
    let axisCenter := if direction = "row" then container.centerY else container.centerX
    let crossCenter := fun (r : Rect) => if direction = "row" then r.centerY else r.centerX
    let centers := (c :: cs).map crossCenter
    let averageCenter := centers.sum / (centers.length : ℚ)
    let tolerance := max 8 (axisSize * (8/100))
    if |averageCenter - axisCenter| ≤ tolerance then some "center"
    else
      let minEdge := listMinBy (fun r => if direction = "row" then r.top else r.left) c cs
      let maxEdge := listMaxBy (fun r => if direction = "row" then r.bottom else r.right) c cs
      if |minEdge - axisStart| ≤ tolerance then some "start"
      else if |axisEnd - maxEdge| ≤ tolerance then some "end"
      else some "start"

/-- Python's `str.lower`, restricted to ASCII letters (every string the
source lowercases is compared against ASCII literals). -/
def asciiLower (s : String) : String :=
  String.mk (s.data.map (fun c =>
    if 65 ≤ c.toNat ∧ c.toNat ≤ 90 then Char.ofNat (c.toNat + 32) else c))

/-- Substring test used to model Python's `"pat" in s`. -/
def containsSub (s pat : String) : Bool :=
  1 < (s.splitOn pat).length

/-- `_map_direction`: map source direction strings to DSL direction values. -/
def mapDirection (value : Option String) : String :=
  match value with
  | none => "col"
  | some v =>
    if v = "" then "col"
    else
      let lowered := asciiLower v
      if containsSub lowered "row" then "row"
      else if containsSub lowered "col" then "col"
      else if containsSub lowered "stack" then "col"
      else "col"

/-- `_leaf_component`: component name for leaf nodes, or `none` for a
container; the type comparison is case-insensitive. -/
def leafComponent (n : LayoutNode) : Option String :=
  let nodeType := asciiLower n.ty
  if nodeType = "text" ∨ nodeType = "paragraph" then some "Text"
  else if nodeType = "icon" then some "Icon"
  else if nodeType = "image" then some "Image"
  else none

/-- `int(node.get("num_line", 1) or 1)`: an absent key and a (falsy) zero
both give 1. -/
def effectiveNumLines (numLine : Option ℤ) : ℤ :=
  match numLine with
  | none => 1
  | some n => if n = 0 then 1 else n

/-- The main-axis size of a rectangle for a given direction. -/
def mainAxisSize (direction : String) (r : Rect) : ℚ :=
  if direction = "row" then r.width else r.height

/-- `_infer_flex`: flex ratio of a child relative to its parent; `none`
when the parent rect or a (truthy) parent direction is missing, or when
the parent's main-axis size is not positive. -/
def inferFlex (rect : Rect) (parentRect : Option Rect) (parentDirection : Option String) :
    Option ℚ :=
  match parentRect, parentDirection with
  | some pr, some pd =>
    if pd = "" then none
    else if mainAxisSize pd pr ≤ 0 then none
    else some (pyRound3 (max 0 (mainAxisSize pd rect / mainAxisSize pd pr)))
  | _, _ => none

/-- Leaf `props` mapping, modelled as one optional field per key the two
modules read or write.  `none` models an absent key; keys whose values
feed only abstracted CSS strings (font weight, colors of no claim, etc.)
are omitted. -/
structure LeafProps where
  fontSize : Option ℚ := none
  maxLines : Option ℤ := none
  content : Option String := none
  icon : Option String := none
  name : Option String := none
  size : Option ℚ := none
  src : Option String := none
  alt : Option String := none
  checked : Option Bool := none
  orientation : Option String := none
  thickness : Option ℚ := none
  progress : Option ℚ := none
  percentage : Option ℚ := none
  strokeWidth : Option ℚ := none
  iconName : Option String := none
  data : List ℚ := []
  labels : List String := []
  smooth : Option Bool := none
  innerRadius : Option Bool := none
  color : Option String := none
deriving DecidableEq

/-- A WidgetDSL node: the `"type"` dispatch of the compiler is modelled by
the constructor.  `unknown` stands for any node whose `type` field is
neither `"container"` nor `"leaf"` (including a missing type); the
compiler reads no other field of such a node, so they carry no payload. -/
inductive DslNode where
  | container (direction : String) (gap : ℤ) (alignMain : Option String)
      (alignCross : Option String) (flex : Option ℚ) (children : List DslNode)
  | leaf (component : Option String) (props : LeafProps) (content : Option String)
      (flex : Option ℚ) (width : Option ℚ) (height : Option ℚ)
  | unknown

/-- The `flex` entry of a DSL node (absent entries are `none`). -/
def DslNode.flexOf : DslNode → Option ℚ
  | .container _ _ _ _ flex _ => flex
  | .leaf _ _ _ flex _ _ => flex
  | .unknown => none

/-- Conversion errors of the inference engine. -/
inductive ConvError where
  | unsupportedNodeType
deriving DecidableEq

/-- `_convert_leaf`: convert a leaf node into its WidgetDSL leaf
representation; raises `UnsupportedNodeType` when the node's type has no
leaf classification. -/
def convertLeaf (n : LayoutNode) (rect : Rect) (physicalSize virtualSize : ℚ × ℚ) :
    Except ConvError DslNode :=
  match leafComponent n with
  | none => .error .unsupportedNodeType
  | some component =>
    if component = "Text" then
      let numLines := effectiveNumLines n.numLine
      .ok (.leaf (some "Text")
        { fontSize := some ((estimateFontSize rect physicalSize virtualSize numLines (6/5) : ℤ) : ℚ),
          maxLines := if 1 < numLines then some numLines else none }
        (some n.text) none none none)
    else if component = "Icon" then
      .ok (.leaf (some "Icon")
        { name := some n.content,
          size := some ((max 12 (pyRound rect.height) : ℤ) : ℚ) }
        none none none none)
    else
      .ok (.leaf (some "Image")
        { src := some "" }
        none none (some ((pyRound rect.width : ℤ) : ℚ)) (some ((pyRound rect.height : ℤ) : ℚ)))

mutual

/-- `_convert_node`: convert a layout node into WidgetDSL recursively.
A node is converted as a leaf exactly when it has a leaf classification
and no children; every other node becomes a container. -/
def convertNode (n : LayoutNode) (physicalSize virtualSize : ℚ × ℚ)
    (parentRect : Option Rect) (parentDirection : Option String) :
    Except ConvError DslNode :=
  let rect := rectFromBounds (n.bounds.getD (0, 0, 0, 0))
  match leafComponent n, n.subNodes with
  | some _, [] => convertLeaf n rect physicalSize virtualSize
  | _, _ => convertContainer n rect physicalSize virtualSize parentRect parentDirection
termination_by (sizeOf n, 1)

/-- `_convert_container`: convert a container node, recursively converting
its children with this container as parent. -/
def convertContainer (n : LayoutNode) (rect : Rect) (physicalSize virtualSize : ℚ × ℚ)
    (parentRect : Option Rect) (parentDirection : Option String) :
    Except ConvError DslNode := do
  let direction := mapDirection n.direction
  let children ← convertNodes n.subNodes physicalSize virtualSize rect direction
  let childRects := childBoundRects n.subNodes
  .ok (.container direction (inferGap n.subNodes direction)
    (alignMain rect childRects direction) (alignCross rect childRects direction)
    (inferFlex rect parentRect parentDirection) children)
termination_by (sizeOf n, 0)
decreasing_by
  exact Prod.Lex.left _ _ (LayoutNode.sizeOf_subNodes_lt n)

/-- Conversion of a list of child nodes in order (the list comprehension in
`_convert_container`), propagating the first error. -/
def convertNodes (l : List LayoutNode) (physicalSize virtualSize : ℚ × ℚ)
    (parentRect : Rect) (parentDirection : String) :
    Except ConvError (List DslNode) :=
  match l with
  | [] => .ok []
  | c :: cs => do
    let d ← convertNode c physicalSize virtualSize (some parentRect) (some parentDirection)
    let ds ← convertNodes cs physicalSize virtualSize parentRect parentDirection
    .ok (d :: ds)
termination_by (sizeOf l, 2)

end

/-- The inference engine's output wrapper
`{ widget: { padding: 0, aspectRatio: [w, h], root: node } }`, together
with the compiler's input shape `{ widget: { root: node, ...chrome } }`.
Chrome fields that feed only abstracted CSS are omitted. -/
structure WidgetSpec where
  root : Option DslNode
  padding : Option ℤ := none
  aspectRatio : Option (ℤ × ℤ) := none

/-- `layout_json_to_widget_dsl`: convert layout-analysis JSON into
WidgetDSL JSON. -/
def layoutJsonToWidgetDsl (layoutJson : LayoutNode) (physicalSize virtualSize : ℚ × ℚ) :
    Except ConvError WidgetSpec := do
  let rootRect := rectFromBounds (layoutJson.bounds.getD (0, 0, 0, 0))
  let rootNode ← convertNode layoutJson physicalSize virtualSize none none
  .ok { root := some rootNode, padding := some 0,
        aspectRatio := some (pyRound rootRect.width, pyRound rootRect.height) }

/-- Compiler hard errors (`ValueError` messages in the source). -/
inductive CompileError where
  | invalidSpec
  | invalidLeaf
deriving DecidableEq

/-- Python string truthiness fallback `a or b` for an optional string. -/
def strOr (a : Option String) (b : String) : String :=
  match a with
  | some s => if s = "" then b else s
  | none => b

/-- The icon lookup table of `map_to_icon_class` (data, not logic). -/
def iconMap : List (String × String) :=
  [("sf:paperplane.fill", "fas fa-paper-plane"), ("sf:sun.max.fill", "fas fa-sun"),
   ("sf:heart.fill", "fas fa-heart"), ("sf:house.fill", "fas fa-home"),
   ("sf:star.fill", "fas fa-star"), ("sf:person.fill", "fas fa-user"),
   ("sf:gear", "fas fa-cog"), ("sf:trash.fill", "fas fa-trash"),
   ("sf:plus.circle.fill", "fas fa-plus-circle"), ("sf:minus.circle.fill", "fas fa-minus-circle"),
   ("sf:checkmark.circle.fill", "fas fa-check-circle"), ("sf:xmark.circle.fill", "fas fa-times-circle"),
   ("sf:arrow.clockwise", "fas fa-sync"), ("sf:play.circle.fill", "fas fa-play-circle"),
   ("sf:pause.circle.fill", "fas fa-pause-circle"), ("sf:stop.circle.fill", "fas fa-stop-circle"),
   ("lu:LuDownload", "fas fa-download"), ("lu:LuUpload", "fas fa-upload"),
   ("lu:LuSettings", "fas fa-cog"), ("lu:LuUser", "fas fa-user"),
   ("lu:LuMail", "fas fa-envelope"), ("lu:LuPhone", "fas fa-phone"),
   ("lu:LuCalendar", "fas fa-calendar"), ("lu:LuClock", "fas fa-clock"),
   ("lu:LuSearch", "fas fa-search"), ("lu:LuBell", "fas fa-bell"),
   ("lu:LuHeart", "fas fa-heart"), ("lu:LuStar", "fas fa-star"),
   ("lu:LuTrash", "fas fa-trash"), ("lu:LuPlus", "fas fa-plus"),
   ("lu:LuMinus", "fas fa-minus"), ("lu:LuCheck", "fas fa-check"),
   ("lu:LuX", "fas fa-times"), ("lu:LuArrowRight", "fas fa-arrow-right"),
   ("lu:LuArrowLeft", "fas fa-arrow-left"), ("lu:LuArrowUp", "fas fa-arrow-up"),
   ("lu:LuArrowDown", "fas fa-arrow-down"),
   ("ai:AiDownload", "fas fa-download"), ("ai:AiUpload", "fas fa-upload"),
   ("ai:AiSetting", "fas fa-cog"), ("ai:AiUser", "fas fa-user"),
   ("ai:AiMail", "fas fa-envelope"),
   ("fa:FaDownload", "fas fa-download"), ("fa:FaUpload", "fas fa-upload"),
   ("fa:FaCog", "fas fa-cog"), ("fa:FaUser", "fas fa-user"),
   ("fa:FaEnvelope", "fas fa-envelope"), ("fa:FaPhone", "fas fa-phone"),
   ("fa:FaCalendar", "fas fa-calendar"), ("fa:FaClock", "fas fa-clock"),
   ("fa:FaSearch", "fas fa-search"), ("fa:FaBell", "fas fa-bell"),
   ("fa:FaHeart", "fas fa-heart"), ("fa:FaStar", "fas fa-star"),
   ("fa:FaTrash", "fas fa-trash"), ("fa:FaPlus", "fas fa-plus"),
   ("fa:FaMinus", "fas fa-minus"), ("fa:FaCheck", "fas fa-check"),
   ("fa:FaTimes", "fas fa-times"), ("fa:FaArrowRight", "fas fa-arrow-right"),
   ("fa:FaArrowLeft", "fas fa-arrow-left"), ("fa:FaArrowUp", "fas fa-arrow-up"),
   ("fa:FaArrowDown", "fas fa-arrow-down")]

/-- `map_to_icon_class`: unknown (or missing) icon names resolve to the
fixed fallback glyph, never an error. -/
def mapToIconClass (name : Option String) : String :=
  match name with
  | some s => (iconMap.lookup s).getD "fas fa-question"
  | none => "fas fa-question"

/-- Declarative chart-options payload of `generate_chart_option`; the
constant base fields (transparent background, no tooltip, no animation)
are common to every variant and not repeated here. -/
inductive ChartOption where
  | base
  | line (labels : List String) (data : List ℚ) (smooth : Bool) (color : String)
  | bar (labels : List String) (data : List ℚ) (color : String)
  | pie (data : List ℚ) (innerRadius : Bool) (color : String)
deriving DecidableEq

/-- `generate_chart_option`: unknown chart types fall back to the base
options payload. -/
def generateChartOption (chartType : String) (props : LeafProps) : ChartOption :=
  if chartType = "LineChart" then
    .line props.labels props.data (props.smooth.getD true) (props.color.getD "#6DD400")
  else if chartType = "BarChart" then
    .bar props.labels props.data (props.color.getD "#6DD400")
  else if chartType = "PieChart" then
    .pie props.data (props.innerRadius.getD false) (props.color.getD "#6DD400")
  else .base

/-- Exact rational value of the IEEE-754 double `math.pi`
(3.14159265358979311…, the value used by the source at runtime). -/
def mathPi : ℚ := 884279719003555 / 281474976710656

/-- The clamp `min(max(percentage, 0), 100)` of the ProgressRing renderer. -/
def normalizedPercentage (percentage : ℚ) : ℚ := min (max percentage 0) 100

/-- `radius = (size - strokeWidth) / 2` of the ProgressRing renderer. -/
def ringRadius (size strokeWidth : ℚ) : ℚ := (size - strokeWidth) / 2

/-- `circumference = 2 * pi * radius`; `piVal` abstracts the runtime value
of `math.pi` (instantiated with `mathPi` by the renderer). -/
def ringCircumference (piVal size strokeWidth : ℚ) : ℚ :=
  2 * piVal * ringRadius size strokeWidth

/-- `stroke_dashoffset = circumference - (normalized / 100) * circumference`
of the ProgressRing renderer. -/
def ringStrokeDashoffset (piVal size strokeWidth percentage : ℚ) : ℚ :=
  ringCircumference piVal size strokeWidth -
    normalizedPercentage percentage / 100 * ringCircumference piVal size strokeWidth

/-- The inner-box width percentage emitted by the ProgressBar renderer:
`progress * 100` with `progress` defaulting to `0.5`; no clamp is applied. -/
def progressBarInnerWidthPercent (progress : Option ℚ) : ℚ :=
  progress.getD (1/2) * 100

/-- One emitted markup element group.  Each constructor corresponds to the
`write(...)` calls of one renderer; literal CSS/indentation strings are
abstracted, keeping the values the source computes into them. -/
inductive Emit where
  | containerOpen (direction : String) (gap : ℤ) (alignMain : Option String)
      (alignCross : Option String) (flex : Option ℚ)
  | containerClose
  | textDiv (fontSize : ℚ) (content : String)
  | buttonOpen (id : ℕ)
  | buttonIcon (iconClass : String)
  | buttonLabel (label : String)
  | buttonClose
  | iconEl (iconClass : String) (size : ℚ)
  | imageEl (src : String) (alt : String)
  | checkboxEl (checked : Bool)
  | dividerEl (orientation : String) (thickness : ℚ)
  | indicatorEl (size : ℚ)
  | progressBarOpen (id : ℕ)
  | progressBarInner (widthPercent : ℚ)
  | progressBarClose
  | progressRingOpen (id : ℕ) (size : ℚ)
  | progressRingTrack (radius strokeWidth : ℚ)
  | progressRingProgress (radius strokeWidth dashArray dashOffset : ℚ)
  | progressRingOverlayIcon (iconClass : String)
  | progressRingOverlayText (text : String)
  | progressRingClose
  | sparklineCanvas (id : ℕ)
  | chartDiv (id : ℕ)
  | genericDiv (content : String)
deriving DecidableEq

/-- One emitted behavior snippet (`write_script(...)` call). -/
inductive Script where
  | buttonBehavior (id : ℕ)
  | progressRingBehavior (id : ℕ) (dashOffset circumference : ℚ)
  | sparklineBehavior (id : ℕ) (data : List ℚ)
  | chartBehavior (id : ℕ) (option : ChartOption)
deriving DecidableEq

/-- Per-invocation mutable compiler state: the `component_counter` dict and
the `unique_id` generator (its time-plus-random id abstracted to a fresh
natural number, since claims compare structure, not literal ids). -/
structure RenderState where
  chartCounter : ℕ
  sparklineCounter : ℕ
  nextUniqueId : ℕ
deriving DecidableEq

/-- `render_button_component`. -/
def renderButtonComponent (props : LeafProps) (st : RenderState) :
    List Emit × List Script × RenderState :=
  let buttonId := st.nextUniqueId
  let body :=
    if strOr props.icon "" ≠ "" then [Emit.buttonIcon (mapToIconClass props.icon)]
    else if strOr props.content "" ≠ "" then [Emit.buttonLabel (strOr props.content "")]
    else [Emit.buttonLabel "Button"]
  (Emit.buttonOpen buttonId :: body ++ [Emit.buttonClose],
   [Script.buttonBehavior buttonId],
   { st with nextUniqueId := buttonId + 1 })

/-- `render_progress_bar_component`: the inner box carries the unclamped
`progress * 100` width percentage; no behavior snippet is written. -/
def renderProgressBarComponent (props : LeafProps) (st : RenderState) :
    List Emit × List Script × RenderState :=
  let containerId := st.nextUniqueId
  ([Emit.progressBarOpen containerId,
    Emit.progressBarInner (progressBarInnerWidthPercent props.progress),
    Emit.progressBarClose],
   [],
   { st with nextUniqueId := containerId + 1 })

/-- `render_progress_ring_component`: percentage clamped to `[0, 100]`,
ring geometry from `size` and `strokeWidth`, optional centered icon or
text overlay, and a behavior snippet carrying the dash offset. -/
def renderProgressRingComponent (props : LeafProps) (st : RenderState) :
    List Emit × List Script × RenderState :=
  let percentage := props.percentage.getD 0
  let size := props.size.getD 80
  let strokeWidth := props.strokeWidth.getD 6
  let progressRingId := st.nextUniqueId
  let radius := ringRadius size strokeWidth
  let circumference := ringCircumference mathPi size strokeWidth
  let strokeDashoffset := ringStrokeDashoffset mathPi size strokeWidth percentage
  let overlay :=
    if strOr props.iconName "" ≠ "" then
      [Emit.progressRingOverlayIcon (mapToIconClass props.iconName)]
    else if strOr props.content "" ≠ "" then
      [Emit.progressRingOverlayText (strOr props.content "")]
    else []
  ([Emit.progressRingOpen progressRingId size,
    Emit.progressRingTrack radius strokeWidth,
    Emit.progressRingProgress radius strokeWidth circumference strokeDashoffset]
    ++ overlay ++ [Emit.progressRingClose],
   [Script.progressRingBehavior progressRingId strokeDashoffset circumference],
   { st with nextUniqueId := progressRingId + 1 })

/-- `render_sparkline_component`: ids come from the per-kind sequential
counter; the data is handed to the behavior snippet unchanged. -/
def renderSparklineComponent (props : LeafProps) (st : RenderState) :
    List Emit × List Script × RenderState :=
  let sparklineId := st.sparklineCounter
  ([Emit.sparklineCanvas sparklineId],
   [Script.sparklineBehavior sparklineId props.data],
   { st with sparklineCounter := sparklineId + 1 })

/-- `render_chart_component`. -/
def renderChartComponent (chartType : String) (props : LeafProps) (st : RenderState) :
    List Emit × List Script × RenderState :=
  let chartId := st.chartCounter
  ([Emit.chartDiv chartId],
   [Script.chartBehavior chartId (generateChartOption chartType props)],
   { st with chartCounter := chartId + 1 })

/-- Leaf dispatch of `render_node` (the `elif` chain on the component
name); an unrecognized component name falls back to the generic renderer. -/
def renderLeaf (componentName : String) (props : LeafProps) (content : Option String)
    (st : RenderState) : List Emit × List Script × RenderState :=
  if componentName = "Text" then
    ([Emit.textDiv (props.fontSize.getD 14) (strOr content (strOr props.content ""))], [], st)
  else if componentName = "Button" then
    renderButtonComponent props st
  else if componentName = "Icon" then
    ([Emit.iconEl (mapToIconClass props.name) (props.size.getD 20)], [], st)
  else if componentName = "Image" then
    ([Emit.imageEl (props.src.getD "") (props.alt.getD "")], [], st)
  else if componentName = "Checkbox" then
    ([Emit.checkboxEl (props.checked.getD false)], [], st)
  else if componentName = "Divider" then
    ([Emit.dividerEl (props.orientation.getD "horizontal") (props.thickness.getD 1)], [], st)
  else if componentName = "Indicator" then
    ([Emit.indicatorEl (props.size.getD 8)], [], st)
  else if componentName = "ProgressBar" then
    renderProgressBarComponent props st
  else if componentName = "ProgressRing" then
    renderProgressRingComponent props st
  else if componentName = "Sparkline" then
    renderSparklineComponent props st
  else if componentName = "LineChart" ∨ componentName = "BarChart" ∨
      componentName = "StackedBarChart" ∨ componentName = "RadarChart" ∨
      componentName = "PieChart" then
    renderChartComponent componentName props st
  else
    ([Emit.genericDiv (strOr content componentName)], [], st)

mutual

/-- `render_node`: containers emit an open/close pair around their
children; leaves check for a (truthy) component name and dispatch;
any other node type is silently ignored. -/
def renderNode (node : DslNode) (depth : ℕ) (st : RenderState) :
    Except CompileError (List Emit × List Script × RenderState) :=
  match node with
  | .container direction gap alignMainValue alignCrossValue flex children => do
    let (childEmits, childScripts, st') ← renderNodes children (depth + 1) st
    .ok (Emit.containerOpen direction gap alignMainValue alignCrossValue flex ::
          childEmits ++ [Emit.containerClose],
         childScripts, st')
  | .leaf component props content _flex _width _height =>
    if strOr component "" = "" then .error .invalidLeaf
    else
      let componentName := strOr component ""
      let mergedProps :=
        if strOr content "" ≠ "" ∧ (componentName = "Button" ∨ componentName = "ProgressRing")
        then { props with content := content }
        else props
      .ok (renderLeaf componentName mergedProps content st)
  | .unknown => .ok ([], [], st)

/-- Rendering of a container's children in order. -/
def renderNodes (l : List DslNode) (depth : ℕ) (st : RenderState) :
    Except CompileError (List Emit × List Script × RenderState) :=
  match l with
  | [] => .ok ([], [], st)
  | c :: cs => do
    let (e1, s1, st1) ← renderNode c depth st
    let (e2, s2, st2) ← renderNodes cs depth st1
    .ok (e1 ++ e2, s1 ++ s2, st2)

end

/-- `compile_widget_dsl_to_html`: fails with `InvalidSpec` when
`widget.root` is missing, otherwise renders the root at depth 0 with fresh
counters; the final document (markup, aggregated styles and scripts,
chrome wrapper) is abstracted to the ordered emission streams. -/
def compileWidgetDslToHtml (widgetDsl : WidgetSpec) :
    Except CompileError (List Emit × List Script) :=
  match widgetDsl.root with
  | none => .error .invalidSpec
  | some root => do
    let (emits, scripts, _) ← renderNode root 0 ⟨0, 0, 0⟩
    .ok (emits, scripts)

mutual

/-- Whether the compiler's traversal of this subtree reaches a leaf with a
missing (or empty) component name; subtrees of ignored unknown-type nodes
are not traversed. -/
def hasMissingComponent : DslNode → Bool
  | .container _ _ _ _ _ children => hasMissingComponentList children
  | .leaf component _ _ _ _ _ => strOr component "" = ""
  | .unknown => false

/-- List version of `hasMissingComponent`. -/
def hasMissingComponentList : List DslNode → Bool
  | [] => false
  | c :: cs => hasMissingComponent c || hasMissingComponentList cs

end


mutual

theorem renderNode_spec (n : DslNode) (depth : ℕ) (st : RenderState) :
    (hasMissingComponent n = true → renderNode n depth st = .error .invalidLeaf) ∧
    (hasMissingComponent n = false →
      ∃ out, renderNode n depth st = .ok out) := by
  match n with
  | .container direction gap aM aC flex children =>
    have ih := renderNodes_spec children (depth + 1) st
    rw [hasMissingComponent, renderNode]
    constructor
    · intro h
      rcases ih with ⟨ih1, _⟩
      rw [ih1 h]
      rfl
    · intro h
      rcases ih with ⟨_, ih2⟩
      rcases ih2 h with ⟨⟨e, s, st'⟩, hout⟩
      exact ⟨_, by rw [hout]; rfl⟩
  | .leaf component props content flex width height =>
    rw [hasMissingComponent, renderNode]
    constructor
    · intro h
      simp only [decide_eq_true_eq] at h
      simp [h]
    · intro h
      simp only [decide_eq_false_iff_not] at h
      simp [h]
  | .unknown =>
    rw [hasMissingComponent, renderNode]
    exact ⟨fun h => by simp at h, fun _ => ⟨_, rfl⟩⟩
termination_by (sizeOf n, 1)

theorem renderNodes_spec (l : List DslNode) (depth : ℕ) (st : RenderState) :
    (hasMissingComponentList l = true → renderNodes l depth st = .error .invalidLeaf) ∧
    (hasMissingComponentList l = false →
      ∃ out, renderNodes l depth st = .ok out) := by
  match l with
  | [] =>
    rw [hasMissingComponentList, renderNodes]
    exact ⟨fun h => by simp at h, fun _ => ⟨_, rfl⟩⟩
  | c :: cs =>
    rw [hasMissingComponentList, renderNodes]
    have ihc := renderNode_spec c depth st
    constructor
    · intro h
      rcases Bool.eq_false_or_eq_true (hasMissingComponent c) with hc1 | hc0
      · rw [ihc.1 hc1]
        rfl
      · rcases Bool.or_eq_true_iff.mp h with hc | hcs
        · rw [ihc.1 hc]
          rfl
        · rcases ihc.2 hc0 with ⟨⟨e1, s1, st1⟩, hout⟩
          have ihcs := renderNodes_spec cs depth st1
          simp only [hout, bind, Except.bind, ihcs.1 hcs]
    · intro h
      rcases Bool.or_eq_false_iff.mp h with ⟨hc, hcs⟩
      rcases ihc.2 hc with ⟨⟨e1, s1, st1⟩, hout⟩
      have ihcs := renderNodes_spec cs depth st1
      rcases ihcs.2 hcs with ⟨⟨e2, s2, st2⟩, hout2⟩
      exact ⟨(e1 ++ e2, s1 ++ s2, st2), by simp only [hout, bind, Except.bind, hout2]⟩
termination_by (sizeOf l, 2)

end



theorem convertLeaf_ok (n : LayoutNode) (rect : Rect) (physicalSize virtualSize : ℚ × ℚ)
    (h : (leafComponent n).isSome) :
    ∃ d, convertLeaf n rect physicalSize virtualSize = .ok d ∧
      hasMissingComponent d = false := by
  unfold convertLeaf
  rcases hc : leafComponent n with _ | c
  · rw [hc] at h
    simp at h
  · simp only
    split_ifs <;>
      exact ⟨_, rfl, by rw [hasMissingComponent]; simp [strOr]⟩

mutual

theorem convertNode_ok (n : LayoutNode) (physicalSize virtualSize : ℚ × ℚ)
    (parentRect : Option Rect) (parentDirection : Option String) :
    ∃ d, convertNode n physicalSize virtualSize parentRect parentDirection = .ok d ∧
      hasMissingComponent d = false := by
  rw [convertNode]
  rcases hc : leafComponent n with _ | c <;> rcases hs : n.subNodes with _ | ⟨c0, cs⟩ <;>
    simp only
  · exact convertContainer_ok n _ physicalSize virtualSize parentRect parentDirection
  · exact convertContainer_ok n _ physicalSize virtualSize parentRect parentDirection
  · exact convertLeaf_ok n _ physicalSize virtualSize (by rw [hc]; rfl)
  · exact convertContainer_ok n _ physicalSize virtualSize parentRect parentDirection
termination_by (sizeOf n, 1)

theorem convertContainer_ok (n : LayoutNode) (rect : Rect) (physicalSize virtualSize : ℚ × ℚ)
    (parentRect : Option Rect) (parentDirection : Option String) :
    ∃ d, convertContainer n rect physicalSize virtualSize parentRect parentDirection = .ok d ∧
      hasMissingComponent d = false := by
  rw [convertContainer]
  rcases convertNodes_ok n.subNodes physicalSize virtualSize rect (mapDirection n.direction)
    with ⟨ds, hds, hmiss⟩
  refine ⟨DslNode.container (mapDirection n.direction)
    (inferGap n.subNodes (mapDirection n.direction))
    (alignMain rect (childBoundRects n.subNodes) (mapDirection n.direction))
    (alignCross rect (childBoundRects n.subNodes) (mapDirection n.direction))
    (inferFlex rect parentRect parentDirection) ds, ?_, ?_⟩
  · simp only [hds, bind, Except.bind]
  · rw [hasMissingComponent]
    exact hmiss
termination_by (sizeOf n, 0)
decreasing_by
  exact Prod.Lex.left _ _ (LayoutNode.sizeOf_subNodes_lt n)

theorem convertNodes_ok (l : List LayoutNode) (physicalSize virtualSize : ℚ × ℚ)
    (parentRect : Rect) (parentDirection : String) :
    ∃ ds, convertNodes l physicalSize virtualSize parentRect parentDirection = .ok ds ∧
      hasMissingComponentList ds = false := by
  match l with
  | [] =>
    rw [convertNodes]
    exact ⟨[], rfl, by rw [hasMissingComponentList]⟩
  | c :: cs =>
    rw [convertNodes]
    rcases convertNode_ok c physicalSize virtualSize (some parentRect) (some parentDirection)
      with ⟨d, hd, hdm⟩
    rcases convertNodes_ok cs physicalSize virtualSize parentRect parentDirection
      with ⟨ds, hds, hdsm⟩
    refine ⟨d :: ds, by simp only [hd, hds, bind, Except.bind], ?_⟩
    rw [hasMissingComponentList]
    simp [hdm, hdsm]
termination_by (sizeOf l, 2)

end



/-- C2: for every structurally valid layout tree, the inference engine
succeeds, its output carries a root node whose traversal reaches no leaf
with a missing component name, and compiling that output succeeds — it
never triggers the compiler's precondition failures. -/
theorem c2_round_trip_never_fails (tree : LayoutNode) (physicalSize virtualSize : ℚ × ℚ) :
    ∃ spec : WidgetSpec, layoutJsonToWidgetDsl tree physicalSize virtualSize = .ok spec ∧
      (∃ r, spec.root = some r ∧ hasMissingComponent r = false) ∧
      ∃ out, compileWidgetDslToHtml spec = .ok out := by
  rcases convertNode_ok tree physicalSize virtualSize none none with ⟨d, hd, hm⟩
  refine ⟨{ root := some d, padding := some 0,
            aspectRatio := some
              (pyRound (rectFromBounds (tree.bounds.getD (0, 0, 0, 0))).width,
               pyRound (rectFromBounds (tree.bounds.getD (0, 0, 0, 0))).height) },
          ?_, ⟨d, rfl, hm⟩, ?_⟩
  · unfold layoutJsonToWidgetDsl
    simp only [hd, bind, Except.bind]
  · rcases (renderNode_spec d 0 ⟨0, 0, 0⟩).2 hm with ⟨⟨e, s, st'⟩, hout⟩
    refine ⟨(e, s), ?_⟩
    unfold compileWidgetDslToHtml
    simp only [hout, bind, Except.bind]

/-- C3: the compiler fails with `InvalidSpec` exactly when the spec lacks
`widget.root`, and fails with `InvalidLeaf` exactly when the traversal
from the root reaches a leaf without a component name; an `Except` result
carries no output on either error. -/
theorem c3_compiler_error_conditions (spec : WidgetSpec) :
    (compileWidgetDslToHtml spec = .error .invalidSpec ↔ spec.root = none) ∧
    (compileWidgetDslToHtml spec = .error .invalidLeaf ↔
      ∃ r, spec.root = some r ∧ hasMissingComponent r = true) := by
  rcases hr : spec.root with _ | r
  · unfold compileWidgetDslToHtml
    rw [hr]
    constructor
    · simp
    · simp
  · unfold compileWidgetDslToHtml
    rw [hr]
    simp only
    rcases Bool.eq_false_or_eq_true (hasMissingComponent r) with hm | hm
    · rw [(renderNode_spec r 0 ⟨0, 0, 0⟩).1 hm]
      constructor
      · simp [bind, Except.bind]
      · constructor
        · intro _
          exact ⟨r, rfl, hm⟩
        · intro _
          simp [bind, Except.bind]
    · rcases (renderNode_spec r 0 ⟨0, 0, 0⟩).2 hm with ⟨⟨e, s, st'⟩, hout⟩
      rw [hout]
      constructor
      · simp [bind, Except.bind]
      · simp only [bind, Except.bind]
        constructor
        · intro h
          exact absurd h (by simp)
        · rintro ⟨r', hr', hm'⟩
          rw [Option.some_inj] at hr'
          rw [hr'] at hm
          rw [hm'] at hm
          exact absurd hm (by simp)

theorem c3_witness :
    compileWidgetDslToHtml { root := none } = .error .invalidSpec ∧
    compileWidgetDslToHtml { root := some (.leaf none {} none none none none) } =
      .error .invalidLeaf := by
  constructor
  · exact (c3_compiler_error_conditions { root := none }).1.mpr rfl
  · exact (c3_compiler_error_conditions _).2.mpr
      ⟨_, rfl, by rw [hasMissingComponent]; decide⟩

theorem renderNodes_insert_unknown (cs2 : List DslNode) (cs1 : List DslNode)
    (depth : ℕ) (st : RenderState) :
    renderNodes (cs1 ++ DslNode.unknown :: cs2) depth st =
      renderNodes (cs1 ++ cs2) depth st := by
  induction cs1 generalizing st with
  | nil =>
    rw [List.nil_append, List.nil_append, renderNodes, renderNode]
    rcases h : renderNodes cs2 depth st with e | ⟨e2, s2, st2⟩
    · simp [bind, Except.bind, h]
    · simp [bind, Except.bind, h]
  | cons c rest ih =>
    rw [List.cons_append, List.cons_append, renderNodes]
    conv_rhs => rw [renderNodes]
    rcases h : renderNode c depth st with e | ⟨e1, s1, st1⟩
    · simp [bind, Except.bind, h]
    · simp only [h, bind, Except.bind]
      rw [ih st1]

/-- C10: a DSL node whose type is neither container nor leaf is silently
ignored: it emits no markup and no behavior snippet, raises no error,
leaves the compiler state untouched, and inside any container's child
list it simply vanishes from the output. -/
theorem c10_unknown_node_ignored :
    (∀ (depth : ℕ) (st : RenderState),
      renderNode DslNode.unknown depth st = .ok ([], [], st)) ∧
    (∀ (direction : String) (gap : ℤ) (aM aC : Option String) (flex : Option ℚ)
      (cs1 cs2 : List DslNode) (depth : ℕ) (st : RenderState),
      renderNode (.container direction gap aM aC flex (cs1 ++ DslNode.unknown :: cs2)) depth st =
        renderNode (.container direction gap aM aC flex (cs1 ++ cs2)) depth st) := by
  constructor
  · intro depth st
    rw [renderNode]
  · intro direction gap aM aC flex cs1 cs2 depth st
    rw [renderNode]
    conv_rhs => rw [renderNode]
    rw [renderNodes_insert_unknown]



/-- C1 counterexample: a childless node of unrecognized type `"frame"` is
converted without error into an empty container — the convert operation
does not raise `UnsupportedNodeType` here, contrary to the claim. -/
theorem c1_counterexample_no_error_raised :
    convertNode (LayoutNode.node "frame" (some (0, 0, 10, 10)) none "" "" none [])
      (672, 1317) (360, 720) none none =
      .ok (DslNode.container "col" 0 none none none []) := by
  rw [convertNode]
  have hc : leafComponent (LayoutNode.node "frame" (some (0, 0, 10, 10)) none "" "" none [])
      = none := by decide
  rw [hc]
  simp only [LayoutNode.subNodes]
  rw [convertContainer]
  simp only [LayoutNode.subNodes, LayoutNode.direction, LayoutNode.bounds]
  rw [convertNodes]
  simp [bind, Except.bind, mapDirection, inferGap, alignMain, alignCross, inferFlex,
    childBoundRects]


/-- C1 amended: a node with no children whose type has no leaf
classification is converted, without error, into a container with the
mapped direction, gap 0, no alignment fields, the inferred flex and an
empty child list; `UnsupportedNodeType` is not raised by the convert
operation for such nodes. -/
theorem c1_unrecognized_childless_becomes_container (n : LayoutNode)
    (physicalSize virtualSize : ℚ × ℚ)
    (parentRect : Option Rect) (parentDirection : Option String)
    (hleaf : leafComponent n = none) (hchildren : n.subNodes = []) :
    convertNode n physicalSize virtualSize parentRect parentDirection =
      .ok (DslNode.container (mapDirection n.direction) 0 none none
        (inferFlex (rectFromBounds (n.bounds.getD (0, 0, 0, 0))) parentRect parentDirection)
        []) := by
  rw [convertNode, hleaf]
  simp only
  rw [convertContainer, hchildren]
  rw [convertNodes]
  simp [bind, Except.bind, inferGap, alignMain, alignCross, childBoundRects]

theorem c1_unrecognized_childless_witness :
    leafComponent (LayoutNode.node "wrapper" none none "" "" none []) = none ∧
    (LayoutNode.node "wrapper" none none "" "" none []).subNodes = [] ∧
    convertNode (LayoutNode.node "wrapper" none none "" "" none [])
      (672, 1317) (360, 720) none none =
      .ok (DslNode.container "col" 0 none none none []) := by
  have h1 : leafComponent (LayoutNode.node "wrapper" none none "" "" none []) = none := by
    decide
  refine ⟨h1, rfl, ?_⟩
  have h2 := c1_unrecognized_childless_becomes_container
    (LayoutNode.node "wrapper" none none "" "" none [])
    (672, 1317) (360, 720) none none h1 rfl
  rw [h2]
  rfl



theorem insertRectBy_length (key : Rect → ℚ) (x : Rect) (l : List Rect) :
    (insertRectBy key x l).length = l.length + 1 := by
  induction l with
  | nil => rfl
  | cons y ys ih =>
    rw [insertRectBy]
    split_ifs
    · simp [ih]
    · simp

theorem sortRectsBy_length (key : Rect → ℚ) (l : List Rect) :
    (sortRectsBy key l).length = l.length := by
  unfold sortRectsBy
  suffices h : ∀ acc : List Rect,
      (l.foldl (fun acc x => insertRectBy key x acc) acc).length = l.length + acc.length by
    simpa using h []
  induction l with
  | nil =>
    intro acc
    simp
  | cons y ys ih =>
    intro acc
    rw [List.foldl_cons, ih, insertRectBy_length]
    simp only [List.length_cons]
    omega

/-- C4: the inferred gap is 0 for fewer than two children and when no
positive adjacent main-axis distance exists, and otherwise equals the
banker's rounding of the median of the positive distances between
children adjacent after the stable sort by main-axis leading edge; in
particular two children with positive main-axis gap `g` give `round g`
for both directions. -/
theorem c4_gap_is_rounded_median :
    (∀ (children : List LayoutNode) (direction : String),
      children.length < 2 → inferGap children direction = 0) ∧
    (∀ (children : List LayoutNode) (direction : String),
      adjacentPositiveGaps
        (sortRectsBy (rectMainKey direction) (childBoundRects children)) direction = [] →
      inferGap children direction = 0) ∧
    (∀ (children : List LayoutNode) (direction : String),
      ¬ children.length < 2 →
      adjacentPositiveGaps
        (sortRectsBy (rectMainKey direction) (childBoundRects children)) direction ≠ [] →
      inferGap children direction =
        pyRound (median (adjacentPositiveGaps
          (sortRectsBy (rectMainKey direction) (childBoundRects children)) direction))) ∧
    (∀ (t1 t2 : String) (d1 d2 : Option String) (x1 x2 y1 y2 : String)
      (m1 m2 : Option ℤ) (s1 s2 : List LayoutNode) (l1 tp1 r1 b1 l2 tp2 r2 b2 : ℚ),
      l1 ≤ l2 → 0 < l2 - r1 →
      inferGap [LayoutNode.node t1 (some (l1, tp1, r1, b1)) d1 x1 y1 m1 s1,
                LayoutNode.node t2 (some (l2, tp2, r2, b2)) d2 x2 y2 m2 s2] "row" =
        pyRound (l2 - r1)) ∧
    (∀ (t1 t2 : String) (d1 d2 : Option String) (x1 x2 y1 y2 : String)
      (m1 m2 : Option ℤ) (s1 s2 : List LayoutNode) (l1 tp1 r1 b1 l2 tp2 r2 b2 : ℚ),
      tp1 ≤ tp2 → 0 < tp2 - b1 →
      inferGap [LayoutNode.node t1 (some (l1, tp1, r1, b1)) d1 x1 y1 m1 s1,
                LayoutNode.node t2 (some (l2, tp2, r2, b2)) d2 x2 y2 m2 s2] "col" =
        pyRound (tp2 - b1)) := by
  refine ⟨?_, ?_, ?_, ?_, ?_⟩
  · intro children direction h
    unfold inferGap
    rw [if_pos h]
  · intro children direction h
    unfold inferGap
    split_ifs with h1 h2 h3
    · rfl
    · rfl
    · rfl
    · rw [List.isEmpty_iff] at h3
      exact absurd h h3
  · intro children direction hlen hgs
    unfold inferGap
    rw [if_neg hlen]
    have h2 : ¬ (childBoundRects children).length < 2 := by
      intro h2
      apply hgs
      have hs : (sortRectsBy (rectMainKey direction) (childBoundRects children)).length < 2 := by
        rw [sortRectsBy_length]
        exact h2
      rcases hsor : sortRectsBy (rectMainKey direction) (childBoundRects children)
        with _ | ⟨a, rest⟩
      · simp [adjacentPositiveGaps]
      · rcases rest with _ | ⟨b, rest2⟩
        · simp [adjacentPositiveGaps]
        · rw [hsor] at hs
          simp only [List.length_cons] at hs
          exact absurd hs (by omega)
    rw [if_neg h2, if_neg (by rw [List.isEmpty_iff]; exact hgs)]
  · intro t1 t2 d1 d2 x1 x2 y1 y2 m1 m2 s1 s2 l1 tp1 r1 b1 l2 tp2 r2 b2 hle hpos
    unfold inferGap
    have hcbr : childBoundRects
        [LayoutNode.node t1 (some (l1, tp1, r1, b1)) d1 x1 y1 m1 s1,
         LayoutNode.node t2 (some (l2, tp2, r2, b2)) d2 x2 y2 m2 s2] =
        [Rect.mk l1 tp1 r1 b1, Rect.mk l2 tp2 r2 b2] := by
      simp [childBoundRects, LayoutNode.bounds, rectFromBounds]
    rw [hcbr]
    have hsort : sortRectsBy (rectMainKey "row") [Rect.mk l1 tp1 r1 b1, Rect.mk l2 tp2 r2 b2] =
        [Rect.mk l1 tp1 r1 b1, Rect.mk l2 tp2 r2 b2] := by
      unfold sortRectsBy
      simp [insertRectBy, rectMainKey, hle]
    rw [hsort]
    have hpos' : r1 < l2 := by linarith
    have hgaps : adjacentPositiveGaps [Rect.mk l1 tp1 r1 b1, Rect.mk l2 tp2 r2 b2] "row" =
        [l2 - r1] := by
      simp [adjacentPositiveGaps, hpos']
    rw [hgaps]
    have hmed : median [l2 - r1] = l2 - r1 := by
      unfold median
      simp [sortQ, insertQ]
    rw [hmed]
    simp
  · intro t1 t2 d1 d2 x1 x2 y1 y2 m1 m2 s1 s2 l1 tp1 r1 b1 l2 tp2 r2 b2 hle hpos
    unfold inferGap
    have hcbr : childBoundRects
        [LayoutNode.node t1 (some (l1, tp1, r1, b1)) d1 x1 y1 m1 s1,
         LayoutNode.node t2 (some (l2, tp2, r2, b2)) d2 x2 y2 m2 s2] =
        [Rect.mk l1 tp1 r1 b1, Rect.mk l2 tp2 r2 b2] := by
      simp [childBoundRects, LayoutNode.bounds, rectFromBounds]
    rw [hcbr]
    have hsort : sortRectsBy (rectMainKey "col") [Rect.mk l1 tp1 r1 b1, Rect.mk l2 tp2 r2 b2] =
        [Rect.mk l1 tp1 r1 b1, Rect.mk l2 tp2 r2 b2] := by
      unfold sortRectsBy
      simp [insertRectBy, rectMainKey, hle]
    rw [hsort]
    have hpos' : b1 < tp2 := by linarith
    have hgaps : adjacentPositiveGaps [Rect.mk l1 tp1 r1 b1, Rect.mk l2 tp2 r2 b2] "col" =
        [tp2 - b1] := by
      simp [adjacentPositiveGaps, hpos']
    rw [hgaps]
    have hmed : median [tp2 - b1] = tp2 - b1 := by
      unfold median
      simp [sortQ, insertQ]
    rw [hmed]
    simp

theorem c4_gap_witness :
    ¬ ([LayoutNode.node "text" (some (0, 0, 10, 10)) none "" "" none [],
        LayoutNode.node "text" (some (14, 0, 24, 10)) none "" "" none []] :
        List LayoutNode).length < 2 ∧
    inferGap [LayoutNode.node "text" (some (0, 0, 10, 10)) none "" "" none [],
              LayoutNode.node "text" (some (14, 0, 24, 10)) none "" "" none []] "row" = 4 := by
  constructor
  · decide
  · have h := c4_gap_is_rounded_median.2.2.2.1 "text" "text" none none "" "" "" ""
      none none [] [] 0 0 10 10 14 0 24 10 (by norm_num) (by norm_num)
    rw [h]
    unfold pyRound
    norm_num



/-- Modelled from the spec: the alignMain decision rule as worded in the
specification, with `tol = max(8, 0.08 * axisSize)` and the four reports
in priority order; the "first child's leading edge" and "last child's
trailing edge" are read as the minimal leading and maximal trailing edges
(the edges of the first and last children in main-axis order), and the
"children's combined center" as the center of their combined bounding
interval. -/
def alignMainRule (container : Rect) (children : List Rect) (direction : String) :
    Option String :=
  match children with
  | [] => none
  | c :: cs =>
    let axisStart := if direction = "row" then container.left else container.top
    let axisEnd := if direction = "row" then container.right else container.bottom
    let axisSize := if direction = "row" then container.width else container.height
    let axisCenter := if direction = "row" then container.centerX else container.centerY
    let firstLeading := listMinBy (leadingEdge direction) c cs
    let lastTrailing := listMaxBy (trailingEdge direction) c cs
    let combinedCenter := (firstLeading + lastTrailing) / 2
    let tol := max 8 (axisSize * (8/100))
    if cs ≠ [] ∧ |firstLeading - axisStart| ≤ tol ∧ |axisEnd - lastTrailing| ≤ tol
    then some "between"
    else if |combinedCenter - axisCenter| ≤ tol then some "center"
    else if |firstLeading - axisStart| ≤ tol then some "start"
    else if |axisEnd - lastTrailing| ≤ tol then some "end"
    else some "start"

/-- C5: for every container with a nonempty child list, `alignMain`
follows the spec's tolerance-based priority rule and always reports one
of `between`, `center`, `start`, `end`. -/
theorem c5_align_main_rule (container : Rect) (children : List Rect) (direction : String)
    (h : children ≠ []) :
    alignMain container children direction = alignMainRule container children direction ∧
    ∃ s, alignMain container children direction = some s ∧
      (s = "between" ∨ s = "center" ∨ s = "start" ∨ s = "end") := by
  rcases children with _ | ⟨c, cs⟩
  · exact absurd rfl h
  · refine ⟨rfl, ?_⟩
    simp only [alignMain]
    split_ifs <;> exact ⟨_, rfl, by simp⟩

theorem c5_align_main_witness :
    ([Rect.mk 0 0 10 10, Rect.mk 90 0 100 10] : List Rect) ≠ [] ∧
    alignMain (Rect.mk 0 0 100 10) [Rect.mk 0 0 10 10, Rect.mk 90 0 100 10] "row" =
      alignMainRule (Rect.mk 0 0 100 10) [Rect.mk 0 0 10 10, Rect.mk 90 0 100 10] "row" ∧
    alignMain (Rect.mk 0 0 100 10) [Rect.mk 0 0 10 10, Rect.mk 90 0 100 10] "row" =
      some "between" := by
  refine ⟨List.cons_ne_nil _ _, (c5_align_main_rule _ _ _ (List.cons_ne_nil _ _)).1, ?_⟩
  norm_num [alignMain, listMinBy, listMaxBy, leadingEdge, trailingEdge,
    Rect.width, Rect.height, Rect.centerX, Rect.centerY]

/-- C6: with a positive derived scale and a nonzero line-height factor,
`estimateFontSize` is monotonically non-decreasing in the bounds height
(device sizes, line count and line-height factor held fixed), and it
never returns a value below 10. -/
theorem c6_font_size_monotone_min10 :
    (∀ (b1 b2 : Rect) (physicalSize virtualSize : ℚ × ℚ) (numLines : ℤ)
      (lineHeightFactor : ℚ),
      0 < derivedScale physicalSize virtualSize → lineHeightFactor ≠ 0 →
      b1.height ≤ b2.height →
      estimateFontSize b1 physicalSize virtualSize numLines lineHeightFactor ≤
        estimateFontSize b2 physicalSize virtualSize numLines lineHeightFactor) ∧
    (∀ (b : Rect) (physicalSize virtualSize : ℚ × ℚ) (numLines : ℤ)
      (lineHeightFactor : ℚ),
      10 ≤ estimateFontSize b physicalSize virtualSize numLines lineHeightFactor) := by
  constructor
  · intro b1 b2 physicalSize virtualSize numLines lineHeightFactor hscale hlhf hh
    unfold estimateFontSize
    have hm : (0 : ℚ) < ((max 1 numLines : ℤ) : ℚ) := by
      have : (1 : ℤ) ≤ max 1 numLines := le_max_left _ _
      exact_mod_cast lt_of_lt_of_le Int.zero_lt_one this
    rcases lt_trichotomy lineHeightFactor 0 with hneg | hzero | hpos
    · have key : ∀ b : Rect,
          b.height / derivedScale physicalSize virtualSize /
            ((max 1 numLines : ℤ) : ℚ) / lineHeightFactor ≤ 0 := by
        intro b
        have h0 : 0 ≤ b.height := le_max_left _ _
        have h1 : 0 ≤ b.height / derivedScale physicalSize virtualSize :=
          div_nonneg h0 hscale.le
        have h2 : 0 ≤ b.height / derivedScale physicalSize virtualSize /
            ((max 1 numLines : ℤ) : ℚ) := div_nonneg h1 hm.le
        exact div_nonpos_of_nonneg_of_nonpos h2 hneg.le
      have r1 := pyRound_nonpos (key b1)
      have r2 := pyRound_nonpos (key b2)
      rw [max_eq_left (by omega), max_eq_left (by omega)]
    · exact absurd hzero hlhf
    · apply max_le_max le_rfl
      apply pyRound_mono
      have h1 : b1.height / derivedScale physicalSize virtualSize ≤
          b2.height / derivedScale physicalSize virtualSize :=
        (div_le_div_iff_of_pos_right hscale).mpr hh
      have h2 := (div_le_div_iff_of_pos_right hm).mpr h1
      exact (div_le_div_iff_of_pos_right hpos).mpr h2
  · intro b physicalSize virtualSize numLines lineHeightFactor
    exact le_max_left _ _

theorem c6_font_size_witness :
    0 < derivedScale (672, 1317) (360, 720) ∧ (6/5 : ℚ) ≠ 0 ∧
    (Rect.mk 0 0 0 10).height ≤ (Rect.mk 0 0 0 20).height ∧
    estimateFontSize (Rect.mk 0 0 0 10) (672, 1317) (360, 720) 1 (6/5) ≤
      estimateFontSize (Rect.mk 0 0 0 20) (672, 1317) (360, 720) 1 (6/5) := by
  have hhh : (Rect.mk 0 0 0 10).height ≤ (Rect.mk 0 0 0 20).height := by
    rw [Rect.height, Rect.height]
    apply max_le_max le_rfl
    norm_num
  refine ⟨by norm_num [derivedScale], by norm_num, hhh, ?_⟩
  exact c6_font_size_monotone_min10.1 _ _ _ _ _ _
    (by norm_num [derivedScale]) (by norm_num) hhh



/-- C7 counterexample: for a degenerate parent whose main-axis size is 0,
the parent rect and direction are both known yet `_infer_flex` omits the
field (`none`) instead of reporting the claimed clamped rounded ratio. -/
theorem c7_counterexample_degenerate_parent :
    inferFlex (Rect.mk 0 0 10 10) (some (Rect.mk 0 0 0 0)) (some "row") = none ∧
    inferFlex (Rect.mk 0 0 10 10) (some (Rect.mk 0 0 0 0)) (some "row") ≠
      some (pyRound3 (max 0 (mainAxisSize "row" (Rect.mk 0 0 10 10) /
        mainAxisSize "row" (Rect.mk 0 0 0 0)))) := by
  have h : inferFlex (Rect.mk 0 0 10 10) (some (Rect.mk 0 0 0 0)) (some "row") = none := by
    rw [inferFlex]
    rw [if_neg (by simp), if_pos]
    rw [mainAxisSize, if_pos rfl, Rect.width]
    norm_num
  exact ⟨h, by rw [h]; simp⟩

/-- C7 amended: the flex field equals `round(childMainSize/parentMainSize, 3)`
clamped to `≥ 0` when the parent rect and a nonempty parent direction are
known and the parent's main-axis size is positive; it is omitted when the
parent rect or direction is unknown or empty, or the parent's main-axis
size is not positive; a child occupying exactly half the parent's
main-axis size gets flex `0.5`; and a converted container carries exactly
this inferred value in its flex field. -/
theorem c7_flex_ratio_rule :
    (∀ (rect : Rect) (parentDirection : Option String),
      inferFlex rect none parentDirection = none) ∧
    (∀ (rect : Rect) (pr : Rect), inferFlex rect (some pr) none = none) ∧
    (∀ (rect : Rect) (pr : Rect) (pd : String), pd ≠ "" → mainAxisSize pd pr ≤ 0 →
      inferFlex rect (some pr) (some pd) = none) ∧
    (∀ (rect : Rect) (pr : Rect) (pd : String), pd ≠ "" → 0 < mainAxisSize pd pr →
      inferFlex rect (some pr) (some pd) =
        some (pyRound3 (max 0 (mainAxisSize pd rect / mainAxisSize pd pr)))) ∧
    (∀ (rect : Rect) (pr : Rect) (pd : String), pd ≠ "" → 0 < mainAxisSize pd pr →
      mainAxisSize pd rect = mainAxisSize pd pr / 2 →
      inferFlex rect (some pr) (some pd) = some (1/2)) ∧
    (∀ (n : LayoutNode) (rect : Rect) (physicalSize virtualSize : ℚ × ℚ)
      (parentRect : Option Rect) (parentDirection : Option String) (d : DslNode),
      convertContainer n rect physicalSize virtualSize parentRect parentDirection = .ok d →
      d.flexOf = inferFlex rect parentRect parentDirection) := by
  refine ⟨?_, ?_, ?_, ?_, ?_, ?_⟩
  · intro rect parentDirection
    cases parentDirection <;> rfl
  · intro rect pr
    rfl
  · intro rect pr pd hpd hsize
    rw [inferFlex, if_neg hpd, if_pos hsize]
  · intro rect pr pd hpd hsize
    rw [inferFlex, if_neg hpd, if_neg (not_le.mpr hsize)]
  · intro rect pr pd hpd hsize hhalf
    rw [inferFlex, if_neg hpd, if_neg (not_le.mpr hsize), hhalf]
    have hne : mainAxisSize pd pr ≠ 0 := ne_of_gt hsize
    have hratio : mainAxisSize pd pr / 2 / mainAxisSize pd pr = 1/2 := by
      field_simp
      ring
    rw [hratio]
    have : pyRound3 (max 0 (1/2 : ℚ)) = 1/2 := by
      rw [max_eq_right (by norm_num)]
      unfold pyRound3 pyRound
      norm_num
    rw [this]
  · intro n rect physicalSize virtualSize parentRect parentDirection d hok
    rw [convertContainer] at hok
    rcases hcv : convertNodes n.subNodes physicalSize virtualSize rect (mapDirection n.direction)
      with e | ds
    · rw [hcv] at hok
      simp [bind, Except.bind] at hok
    · rw [hcv] at hok
      simp only [bind, Except.bind] at hok
      rw [Except.ok.injEq] at hok
      rw [← hok]
      rfl

theorem c7_flex_ratio_witness :
    ("row" : String) ≠ "" ∧ 0 < mainAxisSize "row" (Rect.mk 0 0 100 10) ∧
    mainAxisSize "row" (Rect.mk 0 0 50 10) = mainAxisSize "row" (Rect.mk 0 0 100 10) / 2 ∧
    inferFlex (Rect.mk 0 0 50 10) (some (Rect.mk 0 0 100 10)) (some "row") = some (1/2) := by
  have h1 : ("row" : String) ≠ "" := by simp
  have h2 : 0 < mainAxisSize "row" (Rect.mk 0 0 100 10) := by
    rw [mainAxisSize, if_pos rfl, Rect.width]
    norm_num
  have h3 : mainAxisSize "row" (Rect.mk 0 0 50 10) =
      mainAxisSize "row" (Rect.mk 0 0 100 10) / 2 := by
    rw [mainAxisSize, mainAxisSize, if_pos rfl, if_pos rfl, Rect.width, Rect.width]
    norm_num
  exact ⟨h1, h2, h3, c7_flex_ratio_rule.2.2.2.2.1 _ _ _ h1 h2 h3⟩



theorem normalizedPercentage_clamp_high {p : ℚ} (h : 100 < p) :
    normalizedPercentage p = normalizedPercentage 100 := by
  unfold normalizedPercentage
  rw [max_eq_left (by linarith), min_eq_right (by linarith),
    max_eq_left (by norm_num), min_self]

/-- C8: the ProgressRing renderer clamps the percentage to `[0, 100]`,
computes `radius = (size - strokeWidth)/2` and the dash offset as
`circumference * (1 - normalized/100)`, and for every percentage above
100 both the offset and the whole rendered output equal those computed
for percentage 100. -/
theorem c8_progress_ring_clamp (piVal size strokeWidth percentage : ℚ) :
    (0 ≤ normalizedPercentage percentage ∧ normalizedPercentage percentage ≤ 100) ∧
    ringRadius size strokeWidth = (size - strokeWidth) / 2 ∧
    ringStrokeDashoffset piVal size strokeWidth percentage =
      ringCircumference piVal size strokeWidth *
        (1 - normalizedPercentage percentage / 100) ∧
    (100 < percentage →
      ringStrokeDashoffset piVal size strokeWidth percentage =
        ringStrokeDashoffset piVal size strokeWidth 100) ∧
    (100 < percentage → ∀ (props : LeafProps) (st : RenderState),
      renderProgressRingComponent { props with percentage := some percentage } st =
        renderProgressRingComponent { props with percentage := some 100 } st) := by
  refine ⟨⟨?_, ?_⟩, rfl, ?_, ?_, ?_⟩
  · exact le_min (le_max_right percentage 0) (by norm_num)
  · exact min_le_right _ _
  · unfold ringStrokeDashoffset
    ring
  · intro h
    unfold ringStrokeDashoffset
    rw [normalizedPercentage_clamp_high h]
  · intro h props st
    simp only [renderProgressRingComponent, Option.getD_some]
    rw [show ringStrokeDashoffset mathPi (props.size.getD 80) (props.strokeWidth.getD 6)
        percentage =
      ringStrokeDashoffset mathPi (props.size.getD 80) (props.strokeWidth.getD 6) 100 by
        unfold ringStrokeDashoffset
        rw [normalizedPercentage_clamp_high h]]

theorem c8_progress_ring_witness :
    (100 : ℚ) < 150 ∧
    ringStrokeDashoffset mathPi 80 6 150 = ringStrokeDashoffset mathPi 80 6 100 ∧
    renderProgressRingComponent { percentage := some 150 } ⟨0, 0, 0⟩ =
      renderProgressRingComponent { percentage := some 100 } ⟨0, 0, 0⟩ := by
  refine ⟨by norm_num,
    (c8_progress_ring_clamp mathPi 80 6 150).2.2.2.1 (by norm_num), ?_⟩
  exact (c8_progress_ring_clamp mathPi 80 6 150).2.2.2.2 (by norm_num) {} ⟨0, 0, 0⟩

/-- C9: the ProgressBar renderer uses the progress prop unclamped — the
inner box width percent is exactly `progress * 100` for every progress
value, including values outside `[0, 1]` (e.g. 1.5 gives 150%, -0.5
gives -50%); the absent prop defaults to 0.5. -/
theorem c9_progress_bar_unclamped :
    (∀ p : ℚ, progressBarInnerWidthPercent (some p) = p * 100) ∧
    progressBarInnerWidthPercent (some (3/2)) = 150 ∧
    progressBarInnerWidthPercent (some (-(1/2))) = -50 ∧
    progressBarInnerWidthPercent none = 50 ∧
    (∀ (props : LeafProps) (st : RenderState) (p : ℚ), props.progress = some p →
      renderProgressBarComponent props st =
        ([Emit.progressBarOpen st.nextUniqueId, Emit.progressBarInner (p * 100),
          Emit.progressBarClose], [],
         { st with nextUniqueId := st.nextUniqueId + 1 })) := by
  refine ⟨?_, ?_, ?_, ?_, ?_⟩
  · intro p
    rw [progressBarInnerWidthPercent, Option.getD_some]
  · norm_num [progressBarInnerWidthPercent]
  · norm_num [progressBarInnerWidthPercent]
  · norm_num [progressBarInnerWidthPercent]
  · intro props st p hp
    simp [renderProgressBarComponent, progressBarInnerWidthPercent, hp]

theorem c9_progress_bar_witness :
    ({ progress := some (3/2) } : LeafProps).progress = some (3/2) ∧
    renderProgressBarComponent { progress := some (3/2) } ⟨0, 0, 0⟩ =
      ([Emit.progressBarOpen 0, Emit.progressBarInner 150, Emit.progressBarClose], [],
       ⟨0, 0, 1⟩) := by
  refine ⟨rfl, ?_⟩
  have h := c9_progress_bar_unclamped.2.2.2.2 { progress := some (3/2) } ⟨0, 0, 0⟩
    (3/2) rfl
  rw [h]
  have h150 : (3/2 : ℚ) * 100 = 150 := by norm_num
  rw [h150]


end Widget2Code
